import Mathlib

/-!
A shallow embedding of `src/ragas/testset/generator.py` (the testset
generation orchestration engine of the `ragas` repository).

Modelling conventions:
* LLM handles, docstores, filters and documents are identified by `ℕ` tags;
  a filter value records the llm it wraps (the code builds
  `QuestionFilter(llm=self.critic_llm)` etc.).
* Python floats are modelled as `ℚ`; Python's builtin `round` (round half to
  even, one-argument form returning `int`) is `pyRound`.
* A `DataRow` is a `ℕ` tag; the raw value returned by the executor for one
  job is an `Option ℕ`, with `none` playing the role of the NaN sentinel a
  failed evolution returns.
* The `Executor` and the helpers `check_if_sum_is_close` / `is_nan`
  (`ragas.executor`, `ragas.utils`) are not part of the sources; they are
  modelled from the spec where indicated.
* Side effects (submitting jobs, initializing strategies, setting the run
  config, saving/adapting collaborators, adding documents) are reified as a
  trace: `List Effect`.
-/

/-- Evolution strategy state: class identity tag, whether the object is an
instance of `ComplexEvolution`, and the optional bound collaborators
(`generator_llm`, `docstore`, `question_filter`, `node_filter`,
`evolution_filter`), mirroring the fields touched by
`TestsetGenerator.init_evolution`. -/
structure Evolution where
  kindName : ℕ
  isComplex : Bool
  generator_llm : Option ℕ
  docstore : Option ℕ
  question_filter : Option ℕ
  node_filter : Option ℕ
  evolution_filter : Option ℕ
deriving DecidableEq, Repr

instance : Inhabited Evolution :=
  ⟨⟨0, false, none, none, none, none, none⟩⟩

/-- The `TestsetGenerator` dataclass: `generator_llm`, `critic_llm`,
`embeddings`, `docstore`, plus the two facts about the docstore that
`save`/`adapt` assert (`isinstance(self.docstore, InMemoryDocumentStore)`
and `self.docstore.extractor is not None`). -/
structure TestsetGenerator where
  generator_llm : ℕ
  critic_llm : ℕ
  embeddings : ℕ
  docstore : ℕ
  docstoreIsInMemory : Bool
  docstoreHasExtractor : Bool
deriving DecidableEq, Repr

/-- `TestsetGenerator.init_evolution`: if the evolution has no generation
model bound, bind the generator llm and then bind the docstore, question
filter and node filter where unset (filters wrap the critic llm); for a
`ComplexEvolution` also bind the evolution filter where unset.  If a
generation model is already bound, nothing is touched. -/
def TestsetGenerator.init_evolution (g : TestsetGenerator) (e : Evolution) :
    Evolution :=
  if e.generator_llm = none then
    let e1 := { e with generator_llm := some g.generator_llm }
    let e2 := if e1.docstore = none then
        { e1 with docstore := some g.docstore } else e1
    let e3 := if e2.question_filter = none then
        { e2 with question_filter := some g.critic_llm } else e2
    let e4 := if e3.node_filter = none then
        { e3 with node_filter := some g.critic_llm } else e3
    if e4.isComplex && e4.evolution_filter.isNone then
      { e4 with evolution_filter := some g.critic_llm }
    else e4
  else e

/-- Modelled from the spec: `check_if_sum_is_close` (from `ragas.utils`,
not under `src/`) sums the values and compares the sum to `close_to`
within a tolerance of `places` decimal places. -/
def check_if_sum_is_close (values : List ℚ) (close_to : ℚ) (places : ℕ) :
    Bool :=
  decide (|values.sum - close_to| ≤ 1 / 10 ^ places)

/-- Modelled from the spec: `is_nan` (from `ragas.utils`, not under
`src/`) recognises the NaN sentinel an exhausted/failed evolution job
leaves in the raw result list; in this embedding the sentinel is `none`. -/
def is_nan (r : Option ℕ) : Bool :=
  r.isNone

/-- Python's one-argument `round`: round to the nearest integer, ties to
the even integer (banker's rounding). -/
def pyRound (q : ℚ) : ℤ :=
  let f := ⌊q⌋
  let r := q - f
  if r < 1 / 2 then f
  else if 1 / 2 < r then f + 1
  else if f % 2 = 0 then f else f + 1

/-- Number of main-pass jobs submitted for one strategy of weight `w`:
Python's `range(round(probability * test_size))` — empty when the rounded
value is negative, hence the `Int.toNat`. -/
def mainCount (w : ℚ) (n : ℕ) : ℕ :=
  (pyRound (w * n)).toNat

/-- The main-pass job counts, one per weight in mapping order. -/
def mainCounts (ws : List ℚ) (n : ℕ) : List ℕ :=
  ws.map (fun w => mainCount w n)

/-- `total_evolutions` after the main partition pass. -/
def totalMain (ws : List ℚ) (n : ℕ) : ℕ :=
  (mainCounts ws n).sum

/-- One submitted evolution job: the strategy kind tag (the
`evolution.__class__.__name__` part of the job name), the numeric suffix
of the job name, and the index into `current_nodes` the job is paired
with. -/
structure Job where
  strat : ℕ
  suffix : ℕ
  seedIdx : ℕ
deriving DecidableEq, Repr

/-- The main partition pass of `generate`: for each `(strategy, weight)`
pair in mapping order, `round(weight * test_size)` jobs are submitted,
job `i` of a strategy being paired with `current_nodes[i]` (the loop
variable `i` restarts at `0` for every strategy). -/
def mainJobs (dist : List (ℕ × ℚ)) (n : ℕ) : List Job :=
  dist.flatMap (fun p =>
    (List.range (mainCount p.2 n)).map (fun i => ⟨p.1, i, i⟩))

/-- Number of filler jobs: `test_size - total_evolutions` when the main
pass undershoots or meets `test_size`, `0` otherwise (the reconciliation
pass only triggers on `total_evolutions <= test_size`). -/
def fillerCount (ws : List ℚ) (n : ℕ) : ℕ :=
  if totalMain ws n ≤ n then n - totalMain ws n else 0

/-- The filler pass: `choices(list(distributions), k=test_size - total)`
draws strategies at random — modelled by the oracle `pick`, giving the
position in the distribution list of the `j`-th draw; each filler job is
paired with `current_nodes[total_evolutions]` and named with the running
total, which increments per filler job. -/
def fillerJobs (dist : List (ℕ × ℚ)) (n : ℕ) (pick : ℕ → ℕ) : List Job :=
  let total := totalMain (dist.map (fun p => p.2)) n
  (List.range (fillerCount (dist.map (fun p => p.2)) n)).map (fun j =>
    ⟨(dist.getD (pick j) (0, 0)).1, total + j, total + j⟩)

/-- All jobs submitted by `generate`, in submission order: the main
partition pass followed by the filler pass. -/
def allJobs (dist : List (ℕ × ℚ)) (n : ℕ) (pick : ℕ → ℕ) : List Job :=
  mainJobs dist n ++ fillerJobs dist n pick

/-- The run configuration (`RunConfig`) as far as `generate` constructs
it: `max_retries` and `max_wait`. -/
structure RunConfig where
  max_retries : ℕ
  max_wait : ℕ
deriving DecidableEq, Repr

/-- Reified side effects of the orchestrator, in program order:
setting the docstore run config, `init_evolution` on the strategy at a
position of the mapping, the strategy's own `init` call, submitting an
evolution job to the executor, saving/adapting the docstore extractor,
saving/adapting the strategy at a position of the list, and adding
chunked documents to the docstore. -/
inductive Effect where
  | setRunConfig (rc : RunConfig)
  | initStrategy (idx : ℕ)
  | strategyInit (idx : ℕ)
  | submit (j : Job)
  | extractorSave
  | extractorAdapt
  | strategySave (idx : ℕ)
  | strategyAdapt (idx : ℕ)
  | addDocuments (count : ℕ)
deriving DecidableEq, Repr

/-- Errors the orchestrator can raise: the `ValueError` for an invalid
distribution (carrying the computed weight sum that the message
interpolates), an `IndexError` from reading `current_nodes` past its end,
the error propagated out of `Executor.results()` when a job fails
unrecoverably and `raise_exceptions` is set, and an `AssertionError` from
the `assert` statements of `save`/`adapt`. -/
inductive GenError where
  | invalidDistribution (s : ℚ)
  | indexError (idx : ℕ)
  | jobFailed
  | assertionError
deriving DecidableEq, Repr

/-- The `TestDataset` dataclass: the ordered list of raw rows that
survived the empty-row filter. -/
structure TestDataset where
  test_data : List (Option ℕ)
deriving DecidableEq, Repr

/-- The empty-row filter of `generate`:
`[r for r in test_data_rows if not is_nan(r)]`. -/
def dropNaN (rows : List (Option ℕ)) : List (Option ℕ) :=
  rows.filter (fun r => !(is_nan r))

/-- The jobs `generate` submits, as a function of the distribution list,
the test size and the filler-randomness oracle. -/
def jobsOf (dist : List (Evolution × ℚ)) (n : ℕ) (pick : ℕ → ℕ) :
    List Job :=
  allJobs (dist.map (fun p => (p.1.kindName, p.2))) n pick

/-- Modelled from the spec: `Executor.results()` (`ragas.executor`, not
under `src/`) returns one result per submitted job, in submission order;
a job that exhausts its retries contributes the NaN sentinel (`none`).
The per-job outcome is the oracle `outcome`, indexed by submission
position. -/
def rawResults (jobs : List Job) (outcome : ℕ → Option ℕ) :
    List (Option ℕ) :=
  (List.range jobs.length).map outcome

/-- The effects `generate` performs between validation and job
submission: setting the docstore run config, then `init_evolution` plus
`evolution.init` for each strategy of the mapping in order. -/
def preTrace (dist : List (Evolution × ℚ)) (rc : RunConfig) :
    List Effect :=
  Effect.setRunConfig rc ::
    (List.range dist.length).flatMap (fun i =>
      [Effect.initStrategy i, Effect.strategyInit i])

/-- The Python default of the `raise_exceptions` keyword of `generate`
(and of both document-ingesting wrappers): `True`. -/
def raiseExceptionsDefault : Bool :=
  true

/-- `TestsetGenerator.generate`, returning the trace of effects performed
together with the outcome (the dataset, or the raised error):
1. validate the distribution with `check_if_sum_is_close` and raise a
   `ValueError` carrying the computed sum if it fails;
2. default the run config to 15 retries / max wait 90 and set it on the
   docstore;
3. `init_evolution` + `evolution.init` for every strategy in mapping
   order;
4. submit the main-pass and filler jobs (`jobsOf`), reading
   `current_nodes[seedIdx]` for each — an `IndexError` if a seed index
   reaches `test_size`, since exactly `test_size` seed nodes were drawn;
5. collect `Executor.results()` (modelled from the spec by the `outcome`
   oracle: submission order is preserved; with `raise_exceptions` set the
   first unrecoverable failure raises, otherwise it leaves a NaN
   sentinel);
6. drop NaN rows and package the survivors as a `TestDataset`.
The filler randomness of `random.choices` is the oracle `pick`. -/
def generate (g : TestsetGenerator) (dist : List (Evolution × ℚ))
    (test_size : ℕ) (pick : ℕ → ℕ) (outcome : ℕ → Option ℕ)
    (raise_exceptions : Bool) (run_config : Option RunConfig) :
    List Effect × Except GenError TestDataset :=
  let ws := dist.map (fun p => p.2)
  if check_if_sum_is_close ws 1 3 then
    let rc := run_config.getD ⟨15, 90⟩
    let jobs := jobsOf dist test_size pick
    match jobs.find? (fun j => decide (test_size ≤ j.seedIdx)) with
    | some j =>
        (preTrace dist rc ++
          (jobs.takeWhile (fun j => decide (j.seedIdx < test_size))).map
            Effect.submit,
         Except.error (GenError.indexError j.seedIdx))
    | none =>
        let results := rawResults jobs outcome
        if raise_exceptions && results.any (fun r => r.isNone) then
          (preTrace dist rc ++ jobs.map Effect.submit,
           Except.error GenError.jobFailed)
        else
          (preTrace dist rc ++ jobs.map Effect.submit,
           Except.ok ⟨dropNaN results⟩)
  else
    ([], Except.error (GenError.invalidDistribution ws.sum))

/-- The Python default of the `distributions` keyword of
`generate_with_langchain_docs` / `generate_with_llamaindex_docs`: the
empty dict. -/
def wrapperDistributionsDefault : List (Evolution × ℚ) :=
  []

/-- `TestsetGenerator.generate_with_langchain_docs`: chunk the documents,
add them to the docstore, then call `generate`.  Documents are modelled
as `ℕ` tags; the docstore mutation is the `addDocuments` effect, recorded
before anything `generate` does. -/
def generate_with_langchain_docs (g : TestsetGenerator)
    (documents : List ℕ) (test_size : ℕ) (pick : ℕ → ℕ)
    (outcome : ℕ → Option ℕ) (dist : List (Evolution × ℚ))
    (raise_exceptions : Bool) (run_config : Option RunConfig) :
    List Effect × Except GenError TestDataset :=
  let p := generate g dist test_size pick outcome raise_exceptions
    run_config
  (Effect.addDocuments documents.length :: p.1, p.2)

/-- `TestsetGenerator.generate_with_llamaindex_docs`: same shape as the
langchain wrapper — add the converted documents to the docstore, then
call `generate`. -/
def generate_with_llamaindex_docs (g : TestsetGenerator)
    (documents : List ℕ) (test_size : ℕ) (pick : ℕ → ℕ)
    (outcome : ℕ → Option ℕ) (dist : List (Evolution × ℚ))
    (raise_exceptions : Bool) (run_config : Option RunConfig) :
    List Effect × Except GenError TestDataset :=
  let p := generate g dist test_size pick outcome raise_exceptions
    run_config
  (Effect.addDocuments documents.length :: p.1, p.2)

/-- The three filter preconditions `TestsetGenerator.save` asserts for
one strategy: `node_filter` set, `question_filter` set, and for a
`ComplexEvolution` also `evolution_filter` set. -/
def filtersSet (e : Evolution) : Bool :=
  e.node_filter.isSome && e.question_filter.isSome &&
    (!e.isComplex || e.evolution_filter.isSome)

/-- The per-strategy loop of `TestsetGenerator.save`, carrying the
position `i` of the current strategy: assert `node_filter`,
`question_filter` and (for complex strategies) `evolution_filter` are
set, then call `evolution.save`. -/
def saveLoop : List Evolution → ℕ → List Effect × Option GenError
  | [], _ => ([], none)
  | e :: rest, i =>
    if e.node_filter.isNone then ([], some GenError.assertionError)
    else if e.question_filter.isNone then
      ([], some GenError.assertionError)
    else if e.isComplex && e.evolution_filter.isNone then
      ([], some GenError.assertionError)
    else
      let p := saveLoop rest (i + 1)
      (Effect.strategySave i :: p.1, p.2)

/-- `TestsetGenerator.save`: assert the docstore is in-memory and has an
extractor, save the extractor's prompts, then run the per-strategy loop
(each strategy's filter asserts happen only when the loop reaches it). -/
def TestsetGenerator.save (g : TestsetGenerator)
    (evolutions : List Evolution) : List Effect × Option GenError :=
  if !g.docstoreIsInMemory then ([], some GenError.assertionError)
  else if !g.docstoreHasExtractor then ([], some GenError.assertionError)
  else
    let p := saveLoop evolutions 0
    (Effect.extractorSave :: p.1, p.2)

/-- `TestsetGenerator.adapt`: assert the docstore is in-memory and has an
extractor, adapt the extractor, then for every strategy in order run
`init_evolution`, `evolution.init()` and `evolution.adapt` — with no
filter assertions at all. -/
def TestsetGenerator.adapt (g : TestsetGenerator)
    (evolutions : List Evolution) : List Effect × Option GenError :=
  if !g.docstoreIsInMemory then ([], some GenError.assertionError)
  else if !g.docstoreHasExtractor then ([], some GenError.assertionError)
  else
    (Effect.extractorAdapt ::
      (List.range evolutions.length).flatMap (fun i =>
        [Effect.initStrategy i, Effect.strategyInit i,
         Effect.strategyAdapt i]),
     none)

/-! Concrete fixtures used by the examples, counterexamples and
witnesses. -/

/-- A generator whose docstore satisfies both `save`/`adapt` asserts. -/
def G₀ : TestsetGenerator :=
  ⟨1, 2, 3, 4, true, true⟩

/-- A simple (non-complex) unbound strategy of kind `0`. -/
def evoA : Evolution :=
  ⟨0, false, none, none, none, none, none⟩

/-- A simple (non-complex) unbound strategy of kind `1`. -/
def evoB : Evolution :=
  ⟨1, false, none, none, none, none, none⟩

/-- A simple (non-complex) unbound strategy of kind `2`. -/
def evoC : Evolution :=
  ⟨2, false, none, none, none, none, none⟩

/-- A strategy with a generation model bound but every filter unset. -/
def badEvo : Evolution :=
  ⟨5, false, some 7, none, none, none, none⟩

/-- An unbound `ComplexEvolution` strategy. -/
def unboundComplex : Evolution :=
  ⟨3, true, none, none, none, none, none⟩

/-- A non-complex strategy with all required filters set. -/
def goodEvo : Evolution :=
  ⟨6, false, some 7, some 7, some 8, some 8, none⟩

/-- A fully pre-configured strategy (generation model already bound). -/
def boundEvo : Evolution :=
  ⟨4, false, some 9, some 9, some 9, some 9, some 9⟩

/-- A degenerate filler-randomness oracle: always draw position `0`. -/
def pick₀ : ℕ → ℕ :=
  fun _ => 0

/-- An executor oracle under which every job succeeds with row `0`. -/
def allSomeOutcome : ℕ → Option ℕ :=
  fun _ => some 0

/-- An executor oracle under which every job degrades to the sentinel. -/
def noneOutcome : ℕ → Option ℕ :=
  fun _ => none

/-- The three-way distribution of the spec's worked example:
`{A: 0.5, B: 0.25, C: 0.25}`. -/
def dist₃ : List (Evolution × ℚ) :=
  [(evoA, 1 / 2), (evoB, 1 / 4), (evoC, 1 / 4)]

/-- The kind/weight image of `dist₃` as consumed by the partition. -/
def dist₃k : List (ℕ × ℚ) :=
  [(0, 1 / 2), (1, 1 / 4), (2, 1 / 4)]

/-- A valid distribution whose rounded counts overshoot:
`{A: 0.3, B: 0.3, C: 0.4}`. -/
def distOver : List (Evolution × ℚ) :=
  [(evoA, 3 / 10), (evoB, 3 / 10), (evoC, 2 / 5)]

/-- The kind/weight image of `distOver`. -/
def distOverK : List (ℕ × ℚ) :=
  [(0, 3 / 10), (1, 3 / 10), (2, 2 / 5)]

/-- A distribution that passes validation (sum `1.0`) with a weight
above `1` and a negative weight: `{A: 2.0, B: -1.0}`. -/
def distNeg : List (Evolution × ℚ) :=
  [(evoA, 2), (evoB, -1)]

/-- The kind/weight image of `distNeg`. -/
def distNegK : List (ℕ × ℚ) :=
  [(0, 2), (1, -1)]

/-- The singleton distribution `{A: 1.0}`. -/
def distA : List (Evolution × ℚ) :=
  [(evoA, 1)]
/-- Evaluation helper: `pyRound q = f` when `f = ⌊q⌋` and the fractional
part is below one half. -/
lemma pyRound_eq_floor (q : ℚ) (f : ℤ) (h1 : (f : ℚ) ≤ q)
    (h2 : q < f + 1) (h3 : q - f < 1 / 2) : pyRound q = f := by
  have hf : ⌊q⌋ = f := Int.floor_eq_iff.mpr ⟨h1, h2⟩
  simp only [pyRound]
  rw [hf, if_pos h3]

/-- Evaluation helper: `pyRound q = f + 1` when the fractional part is
above one half. -/
lemma pyRound_eq_up (q : ℚ) (f : ℤ) (h1 : (f : ℚ) ≤ q)
    (h2 : q < f + 1) (h3 : 1 / 2 < q - f) : pyRound q = f + 1 := by
  have hf : ⌊q⌋ = f := Int.floor_eq_iff.mpr ⟨h1, h2⟩
  have h4 : ¬(q - (f : ℚ) < 1 / 2) := by linarith
  simp only [pyRound]
  rw [hf, if_neg h4, if_pos h3]

/-- Evaluation helper for exact ties: `pyRound` rounds to the even
neighbour. -/
lemma pyRound_eq_tie (q : ℚ) (f : ℤ) (h1 : (f : ℚ) ≤ q)
    (h2 : q < f + 1) (h3 : q - f = 1 / 2) :
    pyRound q = if f % 2 = 0 then f else f + 1 := by
  have hf : ⌊q⌋ = f := Int.floor_eq_iff.mpr ⟨h1, h2⟩
  simp only [pyRound]
  rw [hf, h3, if_neg (lt_irrefl _), if_neg (lt_irrefl _)]

lemma mainCount_half_ten : mainCount (1 / 2) 10 = 5 := by
  have h : pyRound ((1 / 2 : ℚ) * (10 : ℕ)) = 5 :=
    pyRound_eq_floor _ 5 (by norm_num) (by norm_num) (by norm_num)
  simp only [mainCount]
  rw [h]
  rfl

lemma mainCount_quarter_ten : mainCount (1 / 4) 10 = 2 := by
  have h : pyRound ((1 / 4 : ℚ) * (10 : ℕ)) =
      if (2 : ℤ) % 2 = 0 then 2 else 2 + 1 :=
    pyRound_eq_tie _ 2 (by norm_num) (by norm_num) (by norm_num)
  simp only [mainCount]
  rw [h]
  norm_num
  rfl

lemma mainCount_half_two : mainCount (1 / 2) 2 = 1 := by
  have h : pyRound ((1 / 2 : ℚ) * (2 : ℕ)) = 1 :=
    pyRound_eq_floor _ 1 (by norm_num) (by norm_num) (by norm_num)
  simp only [mainCount]
  rw [h]
  rfl

lemma mainCount_threeTenths_five : mainCount (3 / 10) 5 = 2 := by
  have h : pyRound ((3 / 10 : ℚ) * (5 : ℕ)) =
      if (1 : ℤ) % 2 = 0 then 1 else 1 + 1 :=
    pyRound_eq_tie _ 1 (by norm_num) (by norm_num) (by norm_num)
  simp only [mainCount]
  rw [h]
  norm_num
  rfl

lemma mainCount_twoFifths_five : mainCount (2 / 5) 5 = 2 := by
  have h : pyRound ((2 / 5 : ℚ) * (5 : ℕ)) = 2 :=
    pyRound_eq_floor _ 2 (by norm_num) (by norm_num) (by norm_num)
  simp only [mainCount]
  rw [h]
  rfl

lemma mainCount_two_one : mainCount 2 1 = 2 := by
  have h : pyRound ((2 : ℚ) * (1 : ℕ)) = 2 :=
    pyRound_eq_floor _ 2 (by norm_num) (by norm_num) (by norm_num)
  simp only [mainCount]
  rw [h]
  rfl

lemma mainCount_negOne_one : mainCount (-1) 1 = 0 := by
  have h : pyRound ((-1 : ℚ) * (1 : ℕ)) = -1 :=
    pyRound_eq_floor _ (-1) (by norm_num) (by norm_num) (by norm_num)
  simp only [mainCount]
  rw [h]
  rfl

lemma mainCount_one_one : mainCount 1 1 = 1 := by
  have h : pyRound ((1 : ℚ) * (1 : ℕ)) = 1 :=
    pyRound_eq_floor _ 1 (by norm_num) (by norm_num) (by norm_num)
  simp only [mainCount]
  rw [h]
  rfl

lemma check_dist₃ :
    check_if_sum_is_close (dist₃.map (fun p => p.2)) 1 3 = true := by
  simp only [dist₃, List.map_cons, List.map_nil, check_if_sum_is_close,
    List.sum_cons, List.sum_nil, decide_eq_true_eq]
  norm_num

lemma check_distOver :
    check_if_sum_is_close (distOver.map (fun p => p.2)) 1 3 = true := by
  simp only [distOver, List.map_cons, List.map_nil, check_if_sum_is_close,
    List.sum_cons, List.sum_nil, decide_eq_true_eq]
  norm_num

lemma check_distNeg :
    check_if_sum_is_close (distNeg.map (fun p => p.2)) 1 3 = true := by
  simp only [distNeg, List.map_cons, List.map_nil, check_if_sum_is_close,
    List.sum_cons, List.sum_nil, decide_eq_true_eq]
  norm_num

lemma check_distA :
    check_if_sum_is_close (distA.map (fun p => p.2)) 1 3 = true := by
  simp only [distA, List.map_cons, List.map_nil, check_if_sum_is_close,
    List.sum_cons, List.sum_nil, decide_eq_true_eq]
  norm_num

lemma check_nil : check_if_sum_is_close ([] : List ℚ) 1 3 = false := by
  simp only [check_if_sum_is_close, List.sum_nil, decide_eq_false_iff_not]
  norm_num

lemma totalMain_dist₃k : totalMain (dist₃k.map (fun p => p.2)) 10 = 9 := by
  simp only [dist₃k, List.map_cons, List.map_nil, totalMain, mainCounts,
    mainCount_half_ten, mainCount_quarter_ten, List.sum_cons, List.sum_nil]
  rfl

lemma totalMain_distOverK :
    totalMain (distOverK.map (fun p => p.2)) 5 = 6 := by
  simp only [distOverK, List.map_cons, List.map_nil, totalMain, mainCounts,
    mainCount_threeTenths_five, mainCount_twoFifths_five, List.sum_cons,
    List.sum_nil]
  rfl

lemma totalMain_distNegK : totalMain (distNegK.map (fun p => p.2)) 1 = 2 := by
  simp only [distNegK, List.map_cons, List.map_nil, totalMain, mainCounts,
    mainCount_two_one, mainCount_negOne_one, List.sum_cons, List.sum_nil]
  rfl

lemma totalMain_distAk : totalMain ([(0, (1 : ℚ))].map (fun p => p.2)) 1 = 1 := by
  simp only [List.map_cons, List.map_nil, totalMain, mainCounts,
    mainCount_one_one, List.sum_cons, List.sum_nil]
  rfl

lemma mainJobs_dist₃k : mainJobs dist₃k 10 =
    [⟨0, 0, 0⟩, ⟨0, 1, 1⟩, ⟨0, 2, 2⟩, ⟨0, 3, 3⟩, ⟨0, 4, 4⟩,
     ⟨1, 0, 0⟩, ⟨1, 1, 1⟩, ⟨2, 0, 0⟩, ⟨2, 1, 1⟩] := by
  simp only [mainJobs, dist₃k, List.flatMap_cons, List.flatMap_nil,
    mainCount_half_ten, mainCount_quarter_ten]
  decide

lemma fillerJobs_dist₃k : fillerJobs dist₃k 10 pick₀ = [⟨0, 9, 9⟩] := by
  simp only [fillerJobs, fillerCount, totalMain_dist₃k]
  decide

lemma jobsOf_dist₃ : jobsOf dist₃ 10 pick₀ =
    [⟨0, 0, 0⟩, ⟨0, 1, 1⟩, ⟨0, 2, 2⟩, ⟨0, 3, 3⟩, ⟨0, 4, 4⟩,
     ⟨1, 0, 0⟩, ⟨1, 1, 1⟩, ⟨2, 0, 0⟩, ⟨2, 1, 1⟩, ⟨0, 9, 9⟩] := by
  show allJobs dist₃k 10 pick₀ = _
  rw [allJobs, mainJobs_dist₃k, fillerJobs_dist₃k]
  rfl

lemma mainJobs_distOverK : mainJobs distOverK 5 =
    [⟨0, 0, 0⟩, ⟨0, 1, 1⟩, ⟨1, 0, 0⟩, ⟨1, 1, 1⟩, ⟨2, 0, 0⟩, ⟨2, 1, 1⟩] := by
  simp only [mainJobs, distOverK, List.flatMap_cons, List.flatMap_nil,
    mainCount_threeTenths_five, mainCount_twoFifths_five]
  decide

lemma fillerJobs_distOverK : fillerJobs distOverK 5 pick₀ = [] := by
  simp only [fillerJobs, fillerCount, totalMain_distOverK]
  decide

lemma jobsOf_distOver : jobsOf distOver 5 pick₀ =
    [⟨0, 0, 0⟩, ⟨0, 1, 1⟩, ⟨1, 0, 0⟩, ⟨1, 1, 1⟩, ⟨2, 0, 0⟩, ⟨2, 1, 1⟩] := by
  show allJobs distOverK 5 pick₀ = _
  rw [allJobs, mainJobs_distOverK, fillerJobs_distOverK]
  rfl

lemma mainJobs_distNegK : mainJobs distNegK 1 = [⟨0, 0, 0⟩, ⟨0, 1, 1⟩] := by
  simp only [mainJobs, distNegK, List.flatMap_cons, List.flatMap_nil,
    mainCount_two_one, mainCount_negOne_one]
  decide

lemma fillerJobs_distNegK : fillerJobs distNegK 1 pick₀ = [] := by
  simp only [fillerJobs, fillerCount, totalMain_distNegK]
  decide

lemma jobsOf_distNeg : jobsOf distNeg 1 pick₀ = [⟨0, 0, 0⟩, ⟨0, 1, 1⟩] := by
  show allJobs distNegK 1 pick₀ = _
  rw [allJobs, mainJobs_distNegK, fillerJobs_distNegK]
  rfl

lemma mainJobs_distAk : mainJobs [(0, (1 : ℚ))] 1 = [⟨0, 0, 0⟩] := by
  simp only [mainJobs, List.flatMap_cons, List.flatMap_nil,
    mainCount_one_one]
  decide

lemma fillerJobs_distAk : fillerJobs [(0, (1 : ℚ))] 1 pick₀ = [] := by
  simp only [fillerJobs, fillerCount, totalMain_distAk]
  decide

lemma jobsOf_distA : jobsOf distA 1 pick₀ = [⟨0, 0, 0⟩] := by
  show allJobs [(0, (1 : ℚ))] 1 pick₀ = _
  rw [allJobs, mainJobs_distAk, fillerJobs_distAk]
  rfl

/-- `pyRound` never exceeds the ceiling. -/
lemma pyRound_le_ceil (q : ℚ) : pyRound q ≤ ⌈q⌉ := by
  have hfc : ⌊q⌋ ≤ ⌈q⌉ := by
    have h1 : ((⌊q⌋ : ℤ) : ℚ) ≤ q := Int.floor_le q
    have h2 : q ≤ ((⌈q⌉ : ℤ) : ℚ) := Int.le_ceil q
    exact_mod_cast h1.trans h2
  have hstep : ¬(q - (⌊q⌋ : ℚ) < 1 / 2) → ⌊q⌋ + 1 ≤ ⌈q⌉ := by
    intro h
    have h0 : (⌊q⌋ : ℚ) < q := by
      have := Int.floor_le q
      nlinarith [not_lt.mp h]
    have h2 : q ≤ ((⌈q⌉ : ℤ) : ℚ) := Int.le_ceil q
    have h3 : ((⌊q⌋ : ℤ) : ℚ) < ((⌈q⌉ : ℤ) : ℚ) := lt_of_lt_of_le h0 h2
    have h4 : ⌊q⌋ < ⌈q⌉ := by exact_mod_cast h3
    omega
  simp only [pyRound]
  split_ifs with h1 h2 h3
  · exact hfc
  · exact hstep h1
  · exact hfc
  · exact hstep h1

/-- If the weight is at most `1`, a strategy's main-pass job count is at
most `test_size`. -/
lemma mainCount_le (w : ℚ) (n : ℕ) (hw : w ≤ 1) : mainCount w n ≤ n := by
  have h1 : pyRound (w * n) ≤ ⌈(w * (n : ℚ))⌉ := pyRound_le_ceil _
  have h2 : ⌈(w * (n : ℚ))⌉ ≤ (n : ℤ) := by
    rw [Int.ceil_le]
    push_cast
    nlinarith [Nat.cast_nonneg (α := ℚ) n]
  exact Int.toNat_le.mpr (h1.trans h2)

/-- Every main-pass job's seed index lies below its own strategy's job
count. -/
lemma mem_mainJobs (dist : List (ℕ × ℚ)) (n : ℕ) (j : Job)
    (hj : j ∈ mainJobs dist n) :
    ∃ p ∈ dist, j.seedIdx < mainCount p.2 n := by
  simp only [mainJobs, List.mem_flatMap, List.mem_map, List.mem_range] at hj
  obtain ⟨p, hp, i, hi, rfl⟩ := hj
  exact ⟨p, hp, hi⟩

/-- Every filler job's seed index lies below `test_size`. -/
lemma mem_fillerJobs (dist : List (ℕ × ℚ)) (n : ℕ) (pick : ℕ → ℕ) (j : Job)
    (hj : j ∈ fillerJobs dist n pick) : j.seedIdx < n := by
  simp only [fillerJobs, List.mem_map, List.mem_range] at hj
  obtain ⟨i, hi, rfl⟩ := hj
  simp only [fillerCount] at hi
  dsimp only
  split at hi <;> omega

/-- The main pass submits `totalMain` many jobs. -/
lemma mainJobs_length (dist : List (ℕ × ℚ)) (n : ℕ) :
    (mainJobs dist n).length = totalMain (dist.map (fun p => p.2)) n := by
  induction dist with
  | nil => rfl
  | cons p rest ih =>
    simp only [mainJobs, List.flatMap_cons, List.length_append,
      List.length_map, List.length_range, List.map_cons, totalMain,
      mainCounts, List.sum_cons] at *
    omega

/-- The filler pass submits `fillerCount` many jobs. -/
lemma fillerJobs_length (dist : List (ℕ × ℚ)) (n : ℕ) (pick : ℕ → ℕ) :
    (fillerJobs dist n pick).length =
      fillerCount (dist.map (fun p => p.2)) n := by
  simp [fillerJobs]

/-- The weights of the kind/weight image of a distribution are the
weights of the distribution. -/
lemma jobsOf_weights (dist : List (Evolution × ℚ)) :
    (dist.map (fun p => (p.1.kindName, p.2))).map (fun p => p.2) =
      dist.map (fun p => p.2) := by
  rw [List.map_map]
  rfl

/-- On a distribution passing validation whose jobs all read seed
bundles in range, `generate` performs the initialization effects and one
submit per job, and its outcome is decided by the executor model:
`raise_exceptions` with a failed job raises, otherwise the NaN-filtered
rows are packaged. -/
lemma generate_eq_of_valid_of_bounds (g : TestsetGenerator)
    (dist : List (Evolution × ℚ)) (n : ℕ) (pick : ℕ → ℕ)
    (outcome : ℕ → Option ℕ) (re : Bool) (rc : Option RunConfig)
    (hval : check_if_sum_is_close (dist.map (fun p => p.2)) 1 3 = true)
    (hidx : ∀ j ∈ jobsOf dist n pick, j.seedIdx < n) :
    generate g dist n pick outcome re rc =
      (preTrace dist (rc.getD ⟨15, 90⟩) ++
        (jobsOf dist n pick).map Effect.submit,
       if re && (rawResults (jobsOf dist n pick) outcome).any
            (fun r => r.isNone) then
         Except.error GenError.jobFailed
       else
         Except.ok ⟨dropNaN (rawResults (jobsOf dist n pick) outcome)⟩) := by
  have hfind : (jobsOf dist n pick).find?
      (fun j => decide (n ≤ j.seedIdx)) = none := by
    rw [List.find?_eq_none]
    intro j hj
    simpa using Nat.not_le.mpr (hidx j hj)
  simp only [generate, hval, if_true, hfind]
  split <;> rfl

/-- Each strategy's main-pass job count is bounded by the main-pass
total. -/
lemma mainCount_le_totalMain (ws : List ℚ) (n : ℕ) (w : ℚ) (hw : w ∈ ws) :
    mainCount w n ≤ totalMain ws n := by
  have hm : mainCount w n ∈ mainCounts ws n := List.mem_map_of_mem _ hw
  exact List.single_le_sum (fun _ _ => Nat.zero_le _) _ hm

/-- When the main pass does not overshoot, every submitted job reads a
seed bundle index below `test_size`. -/
lemma jobsOf_seedIdx_lt_of_totalMain_le (dist : List (Evolution × ℚ))
    (n : ℕ) (pick : ℕ → ℕ)
    (h : totalMain (dist.map (fun p => p.2)) n ≤ n) :
    ∀ j ∈ jobsOf dist n pick, j.seedIdx < n := by
  intro j hj
  rw [jobsOf, allJobs, List.mem_append] at hj
  rcases hj with hj | hj
  · obtain ⟨p, hp, hlt⟩ := mem_mainJobs _ _ _ hj
    have h1 : mainCount p.2 n ≤
        totalMain ((dist.map (fun p => (p.1.kindName, p.2))).map
          (fun p => p.2)) n :=
      mainCount_le_totalMain _ _ _ (List.mem_map_of_mem _ hp)
    rw [jobsOf_weights] at h1
    omega
  · exact mem_fillerJobs _ _ _ _ hj

/-- When the main pass does not overshoot, exactly `test_size` jobs are
submitted in total. -/
lemma jobsOf_length (dist : List (Evolution × ℚ)) (n : ℕ) (pick : ℕ → ℕ)
    (h : totalMain (dist.map (fun p => p.2)) n ≤ n) :
    (jobsOf dist n pick).length = n := by
  rw [jobsOf, allJobs, List.length_append, mainJobs_length,
    fillerJobs_length, jobsOf_weights]
  simp only [fillerCount, if_pos h]
  omega

/-- `init_evolution` on a strategy without a generation model binds the
generation model. -/
lemma init_evolution_binds (g : TestsetGenerator) (e : Evolution)
    (h : e.generator_llm = none) :
    (g.init_evolution e).generator_llm = some g.generator_llm := by
  simp only [TestsetGenerator.init_evolution, h, if_true]
  split_ifs <;> rfl

/-- `init_evolution` on a strategy with a generation model bound is the
identity. -/
lemma init_evolution_skip (g : TestsetGenerator) (e : Evolution)
    (h : ¬ e.generator_llm = none) : g.init_evolution e = e := by
  unfold TestsetGenerator.init_evolution
  rw [if_neg h]

/-- The `save` loop stops with an `AssertionError` at a head strategy
whose filters are not all set, without saving it. -/
lemma saveLoop_bad_head (e : Evolution) (rest : List Evolution) (i : ℕ)
    (hbad : filtersSet e = false) :
    saveLoop (e :: rest) i = ([], some GenError.assertionError) := by
  cases hn : e.node_filter with
  | none => simp [saveLoop, hn]
  | some v =>
    cases hq : e.question_filter with
    | none => simp [saveLoop, hn, hq]
    | some w =>
      cases hc : e.isComplex with
      | false =>
        exfalso
        unfold filtersSet at hbad
        rw [hn, hq, hc] at hbad
        simp at hbad
      | true =>
        cases hev : e.evolution_filter with
        | some u =>
          exfalso
          unfold filtersSet at hbad
          rw [hn, hq, hc, hev] at hbad
          simp at hbad
        | none => simp [saveLoop, hn, hq, hc, hev]

/-- The `save` loop saves a head strategy whose filters are all set and
recurses. -/
lemma saveLoop_good_head (e : Evolution) (rest : List Evolution) (i : ℕ)
    (hgood : filtersSet e = true) :
    saveLoop (e :: rest) i =
      (Effect.strategySave i :: (saveLoop rest (i + 1)).1,
       (saveLoop rest (i + 1)).2) := by
  unfold filtersSet at hgood
  cases hn : e.node_filter with
  | none => rw [hn] at hgood; simp at hgood
  | some v =>
    cases hq : e.question_filter with
    | none => rw [hn, hq] at hgood; simp at hgood
    | some w =>
      cases hc : e.isComplex with
      | false => simp [saveLoop, hn, hq, hc]
      | true =>
        cases hev : e.evolution_filter with
        | none => rw [hn, hq, hc, hev] at hgood; simp at hgood
        | some u => simp [saveLoop, hn, hq, hc, hev]

/-- The `save` loop, started at position `i`, reaching the first
strategy with unset filters at relative position `k`: it has saved every
earlier strategy (positions `i + 0 .. i + (k-1)`) and stops with an
`AssertionError`. -/
lemma saveLoop_reaches_bad (l : List Evolution) (i k : ℕ)
    (hk : k < l.length)
    (hbad : filtersSet (l.getD k default) = false)
    (hgood : ∀ j, j < k → filtersSet (l.getD j default) = true) :
    saveLoop l i =
      ((List.range k).map (fun j => Effect.strategySave (i + j)),
       some GenError.assertionError) := by
  induction l generalizing i k with
  | nil => simp at hk
  | cons e rest ih =>
    cases k with
    | zero =>
      simp only [List.getD_cons_zero] at hbad
      rw [saveLoop_bad_head e rest i hbad]
      rfl
    | succ k' =>
      have hgood0 : filtersSet e = true := by
        have := hgood 0 (Nat.succ_pos _)
        simpa using this
      rw [saveLoop_good_head e rest i hgood0]
      have hrec := ih (i + 1) k' (by simpa using hk)
        (by simpa using hbad)
        (fun j hj => by
          have := hgood (j + 1) (by omega)
          simpa using this)
      rw [hrec]
      simp only [List.range_succ_eq_map, List.map_cons, List.map_map]
      refine congrArg₂ Prod.mk ?_ rfl
      rw [Nat.add_zero]
      congr 1
      apply List.map_congr_left
      intro a _
      simp only [Function.comp_apply]
      congr 1
      omega

/-- `init_evolution` on an unbound complex strategy binds the evolution
filter. -/
lemma init_evolution_complex (g : TestsetGenerator) (e : Evolution)
    (h : e.generator_llm = none) (hc : e.isComplex = true) :
    ((g.init_evolution e).evolution_filter).isSome = true := by
  obtain ⟨kn, c, gl, ds, qf, nf, ef⟩ := e
  dsimp only at h hc
  subst h
  subst hc
  cases ds <;> cases qf <;> cases nf <;> cases ef <;>
    simp [TestsetGenerator.init_evolution]

/-- C8: `init_evolution` is skip-if-bound (a strategy with a generation
model already bound is returned with every field unchanged), idempotent
(two applications equal one), and one application on an unbound complex
strategy leaves the evolution filter bound. -/
theorem init_evolution_idempotent (g : TestsetGenerator) (e : Evolution) :
    (e.generator_llm.isSome = true → g.init_evolution e = e) ∧
    g.init_evolution (g.init_evolution e) = g.init_evolution e ∧
    (e.generator_llm = none → e.isComplex = true →
      ((g.init_evolution e).evolution_filter).isSome = true) := by
  by_cases h : e.generator_llm = none
  · refine ⟨?_, ?_, ?_⟩
    · intro h'
      rw [h] at h'
      simp at h'
    · refine init_evolution_skip g _ ?_
      rw [init_evolution_binds g e h]
      simp
    · intro _ hc
      exact init_evolution_complex g e h hc
  · exact ⟨fun _ => init_evolution_skip g e h,
      by rw [init_evolution_skip g e h, init_evolution_skip g e h],
      fun h0 _ => absurd h0 h⟩

/-- C8 witness: a pre-configured strategy is left unchanged, and one
`init_evolution` call on an unbound complex strategy binds its evolution
filter. -/
theorem init_evolution_idempotent_witness :
    G₀.init_evolution boundEvo = boundEvo ∧
    ((G₀.init_evolution unboundComplex).evolution_filter).isSome = true :=
  ⟨(init_evolution_idempotent G₀ boundEvo).1 rfl,
   (init_evolution_idempotent G₀ unboundComplex).2.2 rfl rfl⟩

/-- C2: at `test_size = 2` with distribution `{A: 0.5, B: 0.5}` (kinds
`0` and `1`), the main partition pass pairs BOTH submitted jobs with
seed bundle `0` — the per-strategy loop variable restarts at `0` — so
one seed bundle is shared by two main-pass jobs and bundle `1` is never
read by the main pass, contradicting pairing each job with the next
unused bundle. -/
theorem mainJobs_seed_reuse :
    mainJobs [(0, (1 : ℚ) / 2), (1, 1 / 2)] 2 =
      [⟨0, 0, 0⟩, ⟨1, 0, 0⟩] ∧
    (mainJobs [(0, (1 : ℚ) / 2), (1, 1 / 2)] 2).map Job.seedIdx =
      [0, 0] := by
  have h : mainJobs [(0, (1 : ℚ) / 2), (1, 1 / 2)] 2 =
      [⟨0, 0, 0⟩, ⟨1, 0, 0⟩] := by
    simp only [mainJobs, List.flatMap_cons, List.flatMap_nil,
      mainCount_half_two]
    decide
  exact ⟨h, by rw [h]; rfl⟩

/-- C3: for `test_size = 10` and the distribution
`{A: 0.5, B: 0.25, C: 0.25}`, the main pass submits exactly 5 jobs of
kind `A`, 2 of kind `B` and 2 of kind `C` (9 jobs), and exactly 1 filler
job is submitted, reaching 10 submitted jobs. -/
theorem partition_example_counts (pick : ℕ → ℕ) :
    (mainJobs dist₃k 10).countP (fun j => j.strat == 0) = 5 ∧
    (mainJobs dist₃k 10).countP (fun j => j.strat == 1) = 2 ∧
    (mainJobs dist₃k 10).countP (fun j => j.strat == 2) = 2 ∧
    (mainJobs dist₃k 10).length = 9 ∧
    (fillerJobs dist₃k 10 pick).length = 1 ∧
    jobsOf dist₃ 10 pick =
      mainJobs dist₃k 10 ++ fillerJobs dist₃k 10 pick ∧
    (jobsOf dist₃ 10 pick).length = 10 ∧
    (generate G₀ dist₃ 10 pick allSomeOutcome raiseExceptionsDefault
        none).1 =
      preTrace dist₃ ⟨15, 90⟩ ++
        (jobsOf dist₃ 10 pick).map Effect.submit := by
  have hm : (mainJobs dist₃k 10).length = 9 := by
    rw [mainJobs_dist₃k]
    rfl
  have hf : (fillerJobs dist₃k 10 pick).length = 1 := by
    rw [fillerJobs_length]
    simp only [fillerCount, totalMain_dist₃k]
    decide
  have hj : jobsOf dist₃ 10 pick =
      mainJobs dist₃k 10 ++ fillerJobs dist₃k 10 pick := rfl
  have hidx : ∀ j ∈ jobsOf dist₃ 10 pick, j.seedIdx < 10 :=
    jobsOf_seedIdx_lt_of_totalMain_le dist₃ 10 pick
      (by show totalMain (dist₃k.map (fun p => p.2)) 10 ≤ 10
          rw [totalMain_dist₃k]
          decide)
  have hgen := generate_eq_of_valid_of_bounds G₀ dist₃ 10 pick
    allSomeOutcome raiseExceptionsDefault none check_dist₃ hidx
  refine ⟨?_, ?_, ?_, hm, hf, hj, ?_, ?_⟩
  · rw [mainJobs_dist₃k]; decide
  · rw [mainJobs_dist₃k]; decide
  · rw [mainJobs_dist₃k]; decide
  · rw [hj, List.length_append, hm, hf]
  · rw [hgen]
    rfl

/-- C7 counterexample: calling `save` with a single strategy whose
filters are unset does fail with the precondition (assertion) error, but
only AFTER the docstore extractor's `save` has already been called — the
failing call has already touched a collaborator. -/
theorem save_touches_extractor_counterexample :
    (G₀.save [badEvo]).2 = some GenError.assertionError ∧
    Effect.extractorSave ∈ (G₀.save [badEvo]).1 := by
  decide

/-- C7 (amended): when the strategy at position `k` of the list is the
first whose filters are not all set, `save` fails with an
`AssertionError` before calling `save` on that strategy — but after
saving the docstore extractor and all `k` earlier strategies; `adapt`
performs no filter precondition check at all and succeeds. -/
theorem save_precondition_trace (g : TestsetGenerator)
    (evolutions : List Evolution) (k : ℕ)
    (hmem : g.docstoreIsInMemory = true)
    (hext : g.docstoreHasExtractor = true)
    (hk : k < evolutions.length)
    (hbad : filtersSet (evolutions.getD k default) = false)
    (hgood : ∀ j, j < k → filtersSet (evolutions.getD j default) = true) :
    g.save evolutions =
      (Effect.extractorSave :: (List.range k).map Effect.strategySave,
       some GenError.assertionError) ∧
    (g.adapt evolutions).2 = none := by
  constructor
  · simp only [TestsetGenerator.save, hmem, hext, Bool.not_true,
      Bool.false_eq_true, if_false]
    rw [saveLoop_reaches_bad evolutions 0 k hk hbad hgood]
    simp only [Nat.zero_add]
  · simp only [TestsetGenerator.adapt, hmem, hext, Bool.not_true,
      Bool.false_eq_true, if_false]

/-- C7 witness: with a well-configured strategy followed by one with
unset filters, `save` saves the extractor and the first strategy and
then stops with the assertion error; `adapt` does not fail. -/
theorem save_precondition_trace_witness :
    G₀.save [goodEvo, badEvo] =
      (Effect.extractorSave :: (List.range 1).map Effect.strategySave,
       some GenError.assertionError) ∧
    (G₀.adapt [goodEvo, badEvo]).2 = none :=
  save_precondition_trace G₀ [goodEvo, badEvo] 1 rfl rfl (by decide)
    (by decide) (by decide)

/-- On a distribution passing validation, `generate`'s trace starts with
the initialization effects — in particular it is nonempty. -/
lemma generate_trace_of_valid (g : TestsetGenerator)
    (dist : List (Evolution × ℚ)) (n : ℕ) (pick : ℕ → ℕ)
    (outcome : ℕ → Option ℕ) (re : Bool) (rc : Option RunConfig)
    (hval : check_if_sum_is_close (dist.map (fun p => p.2)) 1 3 = true) :
    ∃ l, (generate g dist n pick outcome re rc).1 =
      preTrace dist (rc.getD ⟨15, 90⟩) ++ l := by
  simp only [generate, hval, if_true]
  split
  · exact ⟨_, rfl⟩
  · split
    · exact ⟨_, rfl⟩
    · exact ⟨_, rfl⟩

/-- C5: `generate` raises the `ValueError` carrying the computed weight
sum — with nothing yet done: empty effect trace, so no job submitted, no
strategy initialized or mutated, no docstore run config set — if and
only if the sum is farther from `1` than the 3-decimal-place
tolerance. -/
theorem generate_invalid_distribution_iff (g : TestsetGenerator)
    (dist : List (Evolution × ℚ)) (n : ℕ) (pick : ℕ → ℕ)
    (outcome : ℕ → Option ℕ) (re : Bool) (rc : Option RunConfig) :
    generate g dist n pick outcome re rc =
      ([], Except.error (GenError.invalidDistribution
        ((dist.map (fun p => p.2)).sum))) ↔
    ¬ |((dist.map (fun p => p.2)).sum) - 1| ≤ 1 / 1000 := by
  have htol : ((1 : ℚ) / 10 ^ (3 : ℕ)) = 1 / 1000 := by norm_num
  by_cases h : |((dist.map (fun p => p.2)).sum) - 1| ≤ 1 / 1000
  · have hch : check_if_sum_is_close (dist.map (fun p => p.2)) 1 3
        = true := by
      simp only [check_if_sum_is_close, htol, decide_eq_true_eq]
      exact h
    constructor
    · intro heq
      exfalso
      obtain ⟨l, hl⟩ := generate_trace_of_valid g dist n pick outcome re
        rc hch
      have h1 : (generate g dist n pick outcome re rc).1 = [] := by
        rw [heq]
      rw [hl] at h1
      simp [preTrace] at h1
    · intro hr
      exact absurd h hr
  · have hch : check_if_sum_is_close (dist.map (fun p => p.2)) 1 3
        = false := by
      simp only [check_if_sum_is_close, htol, decide_eq_false_iff_not]
      exact h
    constructor
    · intro _
      exact h
    · intro _
      simp only [generate, hch, Bool.false_eq_true, if_false]

/-- C10: calling either document-ingesting wrapper without an explicit
`distributions` argument leaves the Python default `{}`, whose weight
sum `0` fails validation, so the call raises the `ValueError` carrying
sum `0` — but the documents have already been chunked and added to the
docstore: the failed call's trace is exactly the `addDocuments`
mutation. -/
theorem wrappers_default_distributions_raise (g : TestsetGenerator)
    (docs : List ℕ) (n : ℕ) (pick : ℕ → ℕ) (outcome : ℕ → Option ℕ)
    (rc : Option RunConfig) (hne : docs ≠ []) :
    0 < docs.length ∧
    generate_with_langchain_docs g docs n pick outcome
        wrapperDistributionsDefault raiseExceptionsDefault rc =
      ([Effect.addDocuments docs.length],
       Except.error (GenError.invalidDistribution 0)) ∧
    generate_with_llamaindex_docs g docs n pick outcome
        wrapperDistributionsDefault raiseExceptionsDefault rc =
      ([Effect.addDocuments docs.length],
       Except.error (GenError.invalidDistribution 0)) := by
  have hgen : generate g wrapperDistributionsDefault n pick outcome
      raiseExceptionsDefault rc =
      ([], Except.error (GenError.invalidDistribution 0)) := by
    simp only [generate, check_nil, Bool.false_eq_true, if_false,
      wrapperDistributionsDefault, List.map_nil, List.sum_nil]
  refine ⟨List.length_pos.mpr hne, ?_, ?_⟩
  · simp only [generate_with_langchain_docs, hgen]
  · simp only [generate_with_llamaindex_docs, hgen]

/-- C10 witness: one document, no distributions passed. -/
theorem wrappers_default_distributions_raise_witness :
    0 < ([0] : List ℕ).length ∧
    generate_with_langchain_docs G₀ [0] 3 pick₀ allSomeOutcome
        wrapperDistributionsDefault raiseExceptionsDefault none =
      ([Effect.addDocuments 1],
       Except.error (GenError.invalidDistribution 0)) ∧
    generate_with_llamaindex_docs G₀ [0] 3 pick₀ allSomeOutcome
        wrapperDistributionsDefault raiseExceptionsDefault none =
      ([Effect.addDocuments 1],
       Except.error (GenError.invalidDistribution 0)) :=
  wrappers_default_distributions_raise G₀ [0] 3 pick₀ allSomeOutcome none
    (by decide)

/-- C6 counterexample: the caller does not pass the failure-raising flag,
so the Python default `raise_exceptions=True` applies — and a job that
degrades to the sentinel makes `generate` raise the executor error
instead of silently dropping the row. -/
theorem raise_default_counterexample :
    (generate G₀ distA 1 pick₀ noneOutcome raiseExceptionsDefault
        none).2 = Except.error GenError.jobFailed := by
  rw [generate_eq_of_valid_of_bounds G₀ distA 1 pick₀ noneOutcome
    raiseExceptionsDefault none check_distA
    (by rw [jobsOf_distA]; decide)]
  rw [jobsOf_distA]
  rfl

/-- C6 (amended): the DEFAULT policy is the strict one
(`raise_exceptions=True`): by default the first job that exhausts its
retries makes `generate` raise; only when the caller explicitly passes
`raise_exceptions=False` does an exhausted job yield the empty sentinel
that is silently dropped from the dataset. -/
theorem raise_policy_split (g : TestsetGenerator)
    (dist : List (Evolution × ℚ)) (n : ℕ) (pick : ℕ → ℕ)
    (outcome : ℕ → Option ℕ)
    (hval : check_if_sum_is_close (dist.map (fun p => p.2)) 1 3 = true)
    (hidx : ∀ j ∈ jobsOf dist n pick, j.seedIdx < n)
    (hfail : (rawResults (jobsOf dist n pick) outcome).any
      (fun r => r.isNone) = true) :
    (generate g dist n pick outcome raiseExceptionsDefault none).2 =
      Except.error GenError.jobFailed ∧
    (generate g dist n pick outcome false none).2 =
      Except.ok ⟨dropNaN (rawResults (jobsOf dist n pick) outcome)⟩ := by
  constructor
  · rw [generate_eq_of_valid_of_bounds g dist n pick outcome
      raiseExceptionsDefault none hval hidx]
    simp [raiseExceptionsDefault, hfail]
  · rw [generate_eq_of_valid_of_bounds g dist n pick outcome false none
      hval hidx]
    simp

/-- C6 witness: a single always-failing job — the default raises, the
explicit `raise_exceptions=False` call returns the empty dataset. -/
theorem raise_policy_split_witness :
    (generate G₀ distA 1 pick₀ noneOutcome raiseExceptionsDefault
        none).2 = Except.error GenError.jobFailed ∧
    (generate G₀ distA 1 pick₀ noneOutcome false none).2 =
      Except.ok ⟨dropNaN (rawResults (jobsOf distA 1 pick₀)
        noneOutcome)⟩ :=
  raise_policy_split G₀ distA 1 pick₀ noneOutcome check_distA
    (by rw [jobsOf_distA]; decide) (by rw [jobsOf_distA]; rfl)

/-- C9: the empty-row filter is idempotent, and whenever `generate`
returns a dataset its rows are exactly the non-sentinel raw executor
results, in submission order. -/
theorem dropNaN_idempotent_dataset (rows : List (Option ℕ))
    (g : TestsetGenerator) (dist : List (Evolution × ℚ)) (n : ℕ)
    (pick : ℕ → ℕ) (outcome : ℕ → Option ℕ) (re : Bool)
    (rc : Option RunConfig) (ds : TestDataset)
    (hok : (generate g dist n pick outcome re rc).2 = Except.ok ds) :
    dropNaN (dropNaN rows) = dropNaN rows ∧
    ds.test_data = dropNaN (rawResults (jobsOf dist n pick) outcome) := by
  constructor
  · unfold dropNaN
    rw [List.filter_filter]
    simp [Bool.and_self]
  · simp only [generate] at hok
    split at hok
    · split at hok
      · simp at hok
      · split at hok
        · simp at hok
        · simp only at hok
          injection hok with h
          rw [← h]
    · simp at hok

/-- C9 witness: idempotence on a mixed row list, and the dataset of a
successful one-job run equals the filtered raw results. -/
theorem dropNaN_idempotent_dataset_witness :
    dropNaN (dropNaN [some 1, none, some 2]) =
      dropNaN [some 1, none, some 2] ∧
    (TestDataset.mk [some 0]).test_data =
      dropNaN (rawResults (jobsOf distA 1 pick₀) allSomeOutcome) := by
  refine dropNaN_idempotent_dataset [some 1, none, some 2] G₀ distA 1
    pick₀ allSomeOutcome raiseExceptionsDefault none ⟨[some 0]⟩ ?_
  rw [generate_eq_of_valid_of_bounds G₀ distA 1 pick₀ allSomeOutcome
    raiseExceptionsDefault none check_distA
    (by rw [jobsOf_distA]; decide)]
  rw [jobsOf_distA]
  rfl

/-- C1 counterexample: the valid distribution `{0.3, 0.3, 0.4}` at
`test_size = 5` rounds to `2 + 2 + 2 = 6` main-pass jobs (overshoot),
the filler pass does not run, and with every job succeeding `generate`
returns a dataset of 6 rows — strictly more than `test_size`. -/
theorem generate_result_size_counterexample :
    check_if_sum_is_close (distOver.map (fun p => p.2)) 1 3 = true ∧
    (generate G₀ distOver 5 pick₀ allSomeOutcome raiseExceptionsDefault
        none).2 = Except.ok ⟨List.replicate 6 (some 0)⟩ ∧
    ¬ ((List.replicate 6 (some (0 : ℕ))).length ≤ 5) := by
  refine ⟨check_distOver, ?_, by decide⟩
  rw [generate_eq_of_valid_of_bounds G₀ distOver 5 pick₀ allSomeOutcome
    raiseExceptionsDefault none check_distOver
    (by rw [jobsOf_distOver]; decide)]
  rw [jobsOf_distOver]
  rfl

/-- C1 (amended): for a distribution passing validation whose main-pass
totals do not overshoot `test_size`, any dataset `generate` returns has
at most `test_size` rows; and when no job degrades to the sentinel,
`generate` returns a dataset of exactly `test_size` rows. -/
theorem generate_result_size_bound (g : TestsetGenerator)
    (dist : List (Evolution × ℚ)) (n : ℕ) (pick : ℕ → ℕ)
    (outcome : ℕ → Option ℕ) (re : Bool) (rc : Option RunConfig)
    (hval : check_if_sum_is_close (dist.map (fun p => p.2)) 1 3 = true)
    (hpos : 0 < n)
    (hover : totalMain (dist.map (fun p => p.2)) n ≤ n) :
    (∀ ds, (generate g dist n pick outcome re rc).2 = Except.ok ds →
      ds.test_data.length ≤ n) ∧
    ((∀ i, i < n → (outcome i).isSome = true) →
      (generate g dist n pick outcome re rc).2 =
        Except.ok ⟨dropNaN (rawResults (jobsOf dist n pick) outcome)⟩ ∧
      (dropNaN (rawResults (jobsOf dist n pick) outcome)).length
        = n) := by
  have hidx := jobsOf_seedIdx_lt_of_totalMain_le dist n pick hover
  have hlen := jobsOf_length dist n pick hover
  have hres : (rawResults (jobsOf dist n pick) outcome).length = n := by
    rw [rawResults, List.length_map, List.length_range, hlen]
  have hgen := generate_eq_of_valid_of_bounds g dist n pick outcome re rc
    hval hidx
  constructor
  · intro ds hds
    rw [hgen] at hds
    simp only at hds
    split at hds
    · simp at hds
    · injection hds with h
      have h1 : (dropNaN (rawResults (jobsOf dist n pick)
          outcome)).length ≤
          (rawResults (jobsOf dist n pick) outcome).length :=
        List.length_filter_le _ _
      rw [← h]
      simp only []
      omega
  · intro hall
    have hmem : ∀ r ∈ rawResults (jobsOf dist n pick) outcome,
        r.isNone = false := by
      intro r hr
      rw [rawResults] at hr
      obtain ⟨i, hi, rfl⟩ := List.mem_map.mp hr
      rw [List.mem_range, hlen] at hi
      obtain ⟨v, hv⟩ := Option.isSome_iff_exists.mp (hall i hi)
      rw [hv]
      rfl
    have hnofail : (rawResults (jobsOf dist n pick) outcome).any
        (fun r => r.isNone) = false := by
      rw [List.any_eq_false]
      intro r hr
      simp [hmem r hr]
    have hfil : dropNaN (rawResults (jobsOf dist n pick) outcome) =
        rawResults (jobsOf dist n pick) outcome := by
      rw [dropNaN, List.filter_eq_self]
      intro r hr
      simp [is_nan, hmem r hr]
    constructor
    · rw [hgen]
      simp [hnofail]
    · rw [hfil, hres]

/-- C1 witness: at `test_size = 10` with the spec's three-way
distribution and every job succeeding, `generate` returns exactly 10
rows. -/
theorem generate_result_size_bound_witness :
    (generate G₀ dist₃ 10 pick₀ allSomeOutcome raiseExceptionsDefault
        none).2 =
      Except.ok ⟨dropNaN (rawResults (jobsOf dist₃ 10 pick₀)
        allSomeOutcome)⟩ ∧
    (dropNaN (rawResults (jobsOf dist₃ 10 pick₀) allSomeOutcome)).length
      = 10 :=
  (generate_result_size_bound G₀ dist₃ 10 pick₀ allSomeOutcome
      raiseExceptionsDefault none check_dist₃ (by decide)
      (by show totalMain (dist₃k.map (fun p => p.2)) 10 ≤ 10
          rw [totalMain_dist₃k]
          decide)).2
    (fun i _ => rfl)

/-- C4 counterexample: the distribution `{A: 2.0, B: -1.0}` passes
validation (sum `1.0`), yet at `test_size = 1` the main pass submits a
job reading seed bundle index `1` — past the end of the one-element
`current_nodes` list — and `generate` hits the `IndexError`. -/
theorem seedIdx_out_of_bounds_example :
    check_if_sum_is_close (distNeg.map (fun p => p.2)) 1 3 = true ∧
    (0 : ℕ) < 1 ∧
    (⟨0, 1, 1⟩ : Job) ∈ jobsOf distNeg 1 pick₀ ∧
    ¬ ((⟨0, 1, 1⟩ : Job).seedIdx < 1) ∧
    (generate G₀ distNeg 1 pick₀ allSomeOutcome raiseExceptionsDefault
        none).2 = Except.error (GenError.indexError 1) := by
  refine ⟨check_distNeg, by decide, ?_, by decide, ?_⟩
  · rw [jobsOf_distNeg]
    decide
  · simp only [generate, check_distNeg, if_true, jobsOf_distNeg]
    rfl

/-- C4 (amended): for a distribution passing validation whose weights
all lie in `[0, 1]` and any positive `test_size`, every submitted job
(main pass and filler pass) reads a seed bundle index strictly below
`test_size` — indexing `current_nodes` never goes out of bounds. -/
theorem seedIdx_in_bounds_of_unit_weights (dist : List (Evolution × ℚ))
    (n : ℕ) (pick : ℕ → ℕ)
    (hval : check_if_sum_is_close (dist.map (fun p => p.2)) 1 3 = true)
    (hw : ∀ p ∈ dist, 0 ≤ p.2 ∧ p.2 ≤ 1) (hpos : 0 < n) :
    ∀ j ∈ jobsOf dist n pick, j.seedIdx < n := by
  intro j hj
  rw [jobsOf, allJobs, List.mem_append] at hj
  rcases hj with hj | hj
  · obtain ⟨p, hp, hlt⟩ := mem_mainJobs _ _ _ hj
    obtain ⟨q, hq, hpq⟩ := List.mem_map.mp hp
    subst hpq
    have hb : mainCount q.2 n ≤ n := mainCount_le q.2 n (hw q hq).2
    simp only at hlt
    omega
  · exact mem_fillerJobs _ _ _ _ hj

/-- C4 witness: at `test_size = 10` with the spec's three-way
distribution, the last main-pass job of the first strategy reads seed
bundle `4 < 10`. -/
theorem seedIdx_in_bounds_witness :
    (⟨0, 4, 4⟩ : Job) ∈ jobsOf dist₃ 10 pick₀ ∧
    (⟨0, 4, 4⟩ : Job).seedIdx < 10 := by
  have h := seedIdx_in_bounds_of_unit_weights dist₃ 10 pick₀ check_dist₃
    (by
      intro p hp
      simp only [dist₃, List.mem_cons, List.not_mem_nil, or_false] at hp
      rcases hp with rfl | rfl | rfl <;> constructor <;> norm_num)
    (by decide)
  exact ⟨by rw [jobsOf_dist₃]; decide,
    h ⟨0, 4, 4⟩ (by rw [jobsOf_dist₃]; decide)⟩
